import Mathlib

set_option maxHeartbeats 1000000

/-! Shallow embedding of the kes client log module (`log.go`): the two
line-delimited JSON event streams `ErrorStream` and `AuditStream` over a
byte source. Bytes are modelled as `Nat` octet values, Go `error` values
as strings with `nil` rendered `Option.none`, and `io.Reader` as the byte
sequence it will produce together with its final read outcome. The JSON
codec (`encoding/json.Unmarshal`) is an external collaborator of this
module and is passed to `Next` as an explicit decoding function. -/

/-- Go `error` values, abstracted to their message; `nil` is `none`. -/
abbrev GoError := String

/-- The shape of `json.Unmarshal` specialised to one record type: from the
bytes of a line it either produces a record or fails with an error. -/
abbrev Unmarshal (α : Type) := List Nat → Except GoError α

/-- An `io.Closer` bound to a byte source: closing it yields the fixed
result `closeResult` (`none` for a nil error). -/
structure Closer where
  closeResult : Option GoError
deriving DecidableEq, Repr

/-- An `io.Reader` as the streams consume it: the bytes it produces, the
error its final read reports (`none` for a clean `io.EOF`), and the
`io.Closer` capability it optionally implements. -/
structure Reader where
  data : List Nat
  readErr : Option GoError
  closer : Option Closer
deriving DecidableEq, Repr

/-- Go `bufio.dropCR`: drops a terminal carriage return (byte 13). -/
def dropCR (l : List Nat) : List Nat :=
  if l.getLast? = some 13 then l.dropLast else l

/-- Accumulating worker for `splitLines`; `acc` holds the bytes of the
current line in reverse order. -/
def splitLinesAux : List Nat → List Nat → List (List Nat)
  | [], acc => if acc = [] then [] else [dropCR acc.reverse]
  | b :: bs, acc =>
    if b = 10 then dropCR acc.reverse :: splitLinesAux bs []
    else splitLinesAux bs (b :: acc)

/-- Go `bufio.ScanLines` applied exhaustively: the token sequence a
`bufio.Scanner` produces from `data` — split at newline (byte 10), each
token with a terminal carriage return dropped, a final unterminated line
included when non-empty, and no token after a trailing newline. -/
def splitLines (data : List Nat) : List (List Nat) := splitLinesAux data []

/-- Byte values of an ASCII string, for concrete line contents. -/
def strBytes (s : String) : List Nat := s.data.map Char.toNat

/-- A `bufio.Scanner` mid-iteration: the line tokens not yet returned, the
current token (what `Bytes` reports), and the error the scanner reports
once the tokens are exhausted (`none` for a clean end of input). -/
structure Scanner where
  toks : List (List Nat)
  tok : List Nat
  fin : Option GoError
deriving DecidableEq, Repr

/-- The `for` loop of `Next` acting on the scanner: `Scan` repeatedly until
a non-empty token appears (`true`) or the scanner is exhausted (`false`,
token left empty as `bufio.Scanner` leaves it at end of input). -/
def scanSkip : List (List Nat) → Option GoError → Bool × Scanner
  | [], fin => (false, ⟨[], [], fin⟩)
  | t :: rest, fin => if t = [] then scanSkip rest fin else (true, ⟨rest, t, fin⟩)

/-- The scanner after the `Next` loop ran from the scanner's current state. -/
def Scanner.scanToNonEmpty (s : Scanner) : Bool × Scanner := scanSkip s.toks s.fin

/-- Go `bufio.Scanner.Err`, as `Next` reads it after `Scan` returned false. -/
def Scanner.scanErr (s : Scanner) : Option GoError := s.fin

/-- Go `bufio.Scanner.Bytes`. -/
def Scanner.scanBytes (s : Scanner) : List Nat := s.tok

/-- `ErrorEvent` (log.go:120-122): the error-log record, a message string. -/
structure ErrorEvent where
  message : String
deriving DecidableEq, Repr

/-- The Go zero value of `ErrorEvent`. -/
def zeroErrorEvent : ErrorEvent := ⟨""⟩

/-- `ErrorStream` (log.go:44-52). -/
structure ErrorStream where
  scanner : Scanner
  event : ErrorEvent
  err : Option GoError
  closer : Option Closer
  closed : Bool
deriving DecidableEq, Repr

/-- `NewErrorStream` (log.go:17-25): wrap `r` in a fresh scanner and retain
`r` as the closer exactly when it implements `io.Closer`. -/
def NewErrorStream (r : Reader) : ErrorStream :=
  { scanner := ⟨splitLines r.data, [], r.readErr⟩
    event := zeroErrorEvent
    err := none
    closer := r.closer
    closed := false }

/-- `ErrorStream.Err` (log.go:58). -/
def ErrorStream.Err (s : ErrorStream) : Option GoError := s.err

/-- `ErrorStream.Event` (log.go:62). -/
def ErrorStream.Event (s : ErrorStream) : ErrorEvent := s.event

/-- `ErrorStream.Bytes` (log.go:69). -/
def ErrorStream.Bytes (s : ErrorStream) : List Nat := s.scanner.scanBytes

/-- `ErrorStream.Next` (log.go:77-101); `u` is `json.Unmarshal` into
`ErrorEvent`. Returns the Go result together with the mutated receiver. -/
def ErrorStream.Next (u : Unmarshal ErrorEvent) (s : ErrorStream) : Bool × ErrorStream :=
  if s.err ≠ none ∨ s.closed then (false, s)
  else
    match s.scanner.scanToNonEmpty with
    | (false, sc) =>
      (false, { s with scanner := sc, err := if s.closed then s.err else sc.scanErr })
    | (true, sc) =>
      match u sc.tok with
      | .error e =>
        (false, { s with scanner := sc, err := if s.closed then s.err else some e })
      | .ok v => (true, { s with scanner := sc, event := v })

/-- `ErrorStream.Close` (log.go:106-112): only when a closer is bound does
it mark the stream closed and return the closer's result. -/
def ErrorStream.Close (s : ErrorStream) : Option GoError × ErrorStream :=
  match s.closer with
  | none => (none, s)
  | some c => (c.closeResult, { s with closed := true })

/-- `AuditEventRequest` (log.go:250-253). -/
structure AuditEventRequest where
  path : String
  identity : String
deriving DecidableEq, Repr

/-- `AuditEventResponse` (log.go:260-263); the duration is in nanoseconds. -/
structure AuditEventResponse where
  statusCode : Int
  time : Int
deriving DecidableEq, Repr

/-- `AuditEvent` (log.go:231-243); `time.Time` modelled as nanoseconds. -/
structure AuditEvent where
  time : Int
  request : AuditEventRequest
  response : AuditEventResponse
deriving DecidableEq, Repr

/-- The Go zero value of `AuditEvent`. -/
def zeroAuditEvent : AuditEvent := ⟨0, ⟨"", ""⟩, ⟨0, 0⟩⟩

/-- `AuditStream` (log.go:154-162). -/
structure AuditStream where
  scanner : Scanner
  event : AuditEvent
  err : Option GoError
  closer : Option Closer
  closed : Bool
deriving DecidableEq, Repr

/-- `NewAuditStream` (log.go:127-135). -/
def NewAuditStream (r : Reader) : AuditStream :=
  { scanner := ⟨splitLines r.data, [], r.readErr⟩
    event := zeroAuditEvent
    err := none
    closer := r.closer
    closed := false }

/-- `AuditStream.Err` (log.go:168). -/
def AuditStream.Err (s : AuditStream) : Option GoError := s.err

/-- `AuditStream.Event` (log.go:172). -/
def AuditStream.Event (s : AuditStream) : AuditEvent := s.event

/-- `AuditStream.Bytes` (log.go:179). -/
def AuditStream.Bytes (s : AuditStream) : List Nat := s.scanner.scanBytes

/-- `AuditStream.Next` (log.go:187-212); `u` is `json.Unmarshal` into
`AuditEvent`. -/
def AuditStream.Next (u : Unmarshal AuditEvent) (s : AuditStream) : Bool × AuditStream :=
  if s.err ≠ none ∨ s.closed then (false, s)
  else
    match s.scanner.scanToNonEmpty with
    | (false, sc) =>
      (false, { s with scanner := sc, err := if s.closed then s.err else sc.scanErr })
    | (true, sc) =>
      match u sc.tok with
      | .error e =>
        (false, { s with scanner := sc, err := if s.closed then s.err else some e })
      | .ok v => (true, { s with scanner := sc, event := v })

/-- `AuditStream.Close` (log.go:217-223). -/
def AuditStream.Close (s : AuditStream) : Option GoError × AuditStream :=
  match s.closer with
  | none => (none, s)
  | some c => (c.closeResult, { s with closed := true })

/-- Modelled from the spec: the single "Line-Delimited Event Stream" state
machine, parametrized only by the record type (spec sections 2 and 4.1).
`ErrorStream` and `AuditStream` are proved below to be its two
instantiations. -/
structure LogStream (α : Type) where
  scanner : Scanner
  event : α
  err : Option GoError
  closer : Option Closer
  closed : Bool

/-- Modelled from the spec: the advance operation of the generic machine,
with the bound record type's decoder `u` (spec section 4.1). -/
def LogStream.next (u : Unmarshal α) (s : LogStream α) : Bool × LogStream α :=
  if s.err ≠ none ∨ s.closed then (false, s)
  else
    match s.scanner.scanToNonEmpty with
    | (false, sc) =>
      (false, { s with scanner := sc, err := if s.closed then s.err else sc.scanErr })
    | (true, sc) =>
      match u sc.tok with
      | .error e =>
        (false, { s with scanner := sc, err := if s.closed then s.err else some e })
      | .ok v => (true, { s with scanner := sc, event := v })

/-- Modelled from the spec: the closing operation of the generic machine. -/
def LogStream.close (s : LogStream α) : Option GoError × LogStream α :=
  match s.closer with
  | none => (none, s)
  | some c => (c.closeResult, { s with closed := true })

/-- View of an `ErrorStream` as a state of the generic machine. -/
def ErrorStream.toLog (s : ErrorStream) : LogStream ErrorEvent :=
  ⟨s.scanner, s.event, s.err, s.closer, s.closed⟩

/-- Inverse view of `ErrorStream.toLog`. -/
def ofLogE (l : LogStream ErrorEvent) : ErrorStream :=
  ⟨l.scanner, l.event, l.err, l.closer, l.closed⟩

/-- View of an `AuditStream` as a state of the generic machine. -/
def AuditStream.toLog (s : AuditStream) : LogStream AuditEvent :=
  ⟨s.scanner, s.event, s.err, s.closer, s.closed⟩

/-- Inverse view of `AuditStream.toLog`. -/
def ofLogA (l : LogStream AuditEvent) : AuditStream :=
  ⟨l.scanner, l.event, l.err, l.closer, l.closed⟩

/-- An `ErrorStream` state carried over to the audit record type by a map
`f` on events, all other fields unchanged. -/
def crossMap (f : ErrorEvent → AuditEvent) (s : ErrorStream) : AuditStream :=
  ⟨s.scanner, f s.event, s.err, s.closer, s.closed⟩

/-- Successive `Next` calls on the generic machine: the list of results,
each paired with the event held after that call, and the final state. -/
def LogStream.run (u : Unmarshal α) : Nat → LogStream α → List (Bool × α) × LogStream α
  | 0, s => ([], s)
  | n + 1, s =>
    let r := LogStream.next u s
    let rest := LogStream.run u n r.2
    ((r.1, r.2.event) :: rest.1, rest.2)

/-- Successive `Next` calls on an `ErrorStream` (result, event after call). -/
def ErrorStream.run (u : Unmarshal ErrorEvent) : Nat → ErrorStream → List (Bool × ErrorEvent) × ErrorStream
  | 0, s => ([], s)
  | n + 1, s =>
    let r := ErrorStream.Next u s
    let rest := ErrorStream.run u n r.2
    ((r.1, r.2.event) :: rest.1, rest.2)

/-- Successive `Next` calls on an `AuditStream` (result, event after call). -/
def AuditStream.run (u : Unmarshal AuditEvent) : Nat → AuditStream → List (Bool × AuditEvent) × AuditStream
  | 0, s => ([], s)
  | n + 1, s =>
    let r := AuditStream.Next u s
    let rest := AuditStream.run u n r.2
    ((r.1, r.2.event) :: rest.1, rest.2)

/-- One caller-visible mutating operation on a stream. -/
inductive LogOp
  | nextOp
  | closeOp
deriving DecidableEq, Repr

/-- A sequence of mutating operations applied to an `ErrorStream`. -/
def ErrorStream.runOps (u : Unmarshal ErrorEvent) : List LogOp → ErrorStream → ErrorStream
  | [], s => s
  | .nextOp :: ops, s => ErrorStream.runOps u ops (ErrorStream.Next u s).2
  | .closeOp :: ops, s => ErrorStream.runOps u ops (ErrorStream.Close s).2

/-- A sequence of mutating operations applied to an `AuditStream`. -/
def AuditStream.runOps (u : Unmarshal AuditEvent) : List LogOp → AuditStream → AuditStream
  | [], s => s
  | .nextOp :: ops, s => AuditStream.runOps u ops (AuditStream.Next u s).2
  | .closeOp :: ops, s => AuditStream.runOps u ops (AuditStream.Close s).2

/-- The same stream with the bound closer's close result replaced by `r`:
same closability, different error from closing the resource. -/
def ErrorStream.withCloseResult (r : Option GoError) (s : ErrorStream) : ErrorStream :=
  { s with closer := s.closer.map fun _ => ⟨r⟩ }

/-- The same stream with the bound closer's close result replaced by `r`. -/
def AuditStream.withCloseResult (r : Option GoError) (s : AuditStream) : AuditStream :=
  { s with closer := s.closer.map fun _ => ⟨r⟩ }

theorem ofLogE_toLog (s : ErrorStream) : ofLogE s.toLog = s := rfl

theorem toLog_ofLogE (l : LogStream ErrorEvent) : (ofLogE l).toLog = l := rfl

theorem ofLogA_toLog (s : AuditStream) : ofLogA s.toLog = s := rfl

theorem toLog_ofLogA (l : LogStream AuditEvent) : (ofLogA l).toLog = l := rfl

theorem scanSkip_cons_empty (rest : List (List Nat)) (fin : Option GoError) :
    scanSkip ([] :: rest) fin = scanSkip rest fin := by
  simp [scanSkip]

theorem scanSkip_cons_ne (t : List Nat) (rest : List (List Nat)) (fin : Option GoError)
    (h : t ≠ []) : scanSkip (t :: rest) fin = (true, ⟨rest, t, fin⟩) := by
  simp [scanSkip, h]

theorem scanSkip_true_mem :
    ∀ (toks : List (List Nat)) (fin : Option GoError) (sc : Scanner),
      scanSkip toks fin = (true, sc) → sc.tok ∈ toks ∧ sc.tok ≠ [] := by
  intro toks
  induction toks with
  | nil =>
    intro fin sc h
    simp [scanSkip] at h
  | cons t rest ih =>
    intro fin sc h
    by_cases ht : t = []
    · subst ht
      rw [scanSkip_cons_empty] at h
      rcases ih fin sc h with ⟨h1, h2⟩
      exact ⟨List.mem_cons_of_mem _ h1, h2⟩
    · rw [scanSkip_cons_ne t rest fin ht] at h
      cases h
      exact ⟨List.mem_cons_self _ _, ht⟩

theorem nextBridgeE (u : Unmarshal ErrorEvent) (s : ErrorStream) :
    ErrorStream.Next u s =
      ((LogStream.next u s.toLog).1, ofLogE (LogStream.next u s.toLog).2) := by
  cases s with
  | mk sc ev er cl cd =>
    simp only [ErrorStream.Next, LogStream.next, ErrorStream.toLog, ofLogE]
    by_cases h : er ≠ none ∨ cd = true
    · rw [if_pos h, if_pos h]
    · rw [if_neg h, if_neg h]
      rcases hsc : Scanner.scanToNonEmpty ⟨sc.toks, sc.tok, sc.fin⟩ with ⟨b, sc2⟩
      cases b
      · rfl
      · rcases hu : u sc2.tok with e | v <;> simp only [hu]

theorem nextBridgeA (u : Unmarshal AuditEvent) (s : AuditStream) :
    AuditStream.Next u s =
      ((LogStream.next u s.toLog).1, ofLogA (LogStream.next u s.toLog).2) := by
  cases s with
  | mk sc ev er cl cd =>
    simp only [AuditStream.Next, LogStream.next, AuditStream.toLog, ofLogA]
    by_cases h : er ≠ none ∨ cd = true
    · rw [if_pos h, if_pos h]
    · rw [if_neg h, if_neg h]
      rcases hsc : Scanner.scanToNonEmpty ⟨sc.toks, sc.tok, sc.fin⟩ with ⟨b, sc2⟩
      cases b
      · rfl
      · rcases hu : u sc2.tok with e | v <;> simp only [hu]

theorem runBridgeE (u : Unmarshal ErrorEvent) :
    ∀ (n : Nat) (s : ErrorStream),
      ErrorStream.run u n s =
        ((LogStream.run u n s.toLog).1, ofLogE (LogStream.run u n s.toLog).2) := by
  intro n
  induction n with
  | zero => intro s; rfl
  | succ n ih =>
    intro s
    simp only [ErrorStream.run, LogStream.run, nextBridgeE u s, ih, toLog_ofLogE]
    rfl

theorem runBridgeA (u : Unmarshal AuditEvent) :
    ∀ (n : Nat) (s : AuditStream),
      AuditStream.run u n s =
        ((LogStream.run u n s.toLog).1, ofLogA (LogStream.run u n s.toLog).2) := by
  intro n
  induction n with
  | zero => intro s; rfl
  | succ n ih =>
    intro s
    simp only [AuditStream.run, LogStream.run, nextBridgeA u s, ih, toLog_ofLogA]
    rfl

theorem next_terminal (u : Unmarshal α) (s : LogStream α)
    (h : s.err ≠ none ∨ s.closed = true) : LogStream.next u s = (false, s) := by
  rw [LogStream.next, if_pos h]

theorem run_terminal (u : Unmarshal α) :
    ∀ (n : Nat) (s : LogStream α), s.err ≠ none ∨ s.closed = true →
      LogStream.run u n s = (List.replicate n (false, s.event), s) := by
  intro n
  induction n with
  | zero => intro s _; rfl
  | succ n ih =>
    intro s h
    simp only [LogStream.run, next_terminal u s h, ih s h, List.replicate_succ]

theorem run_succ (u : Unmarshal α) (n : Nat) (s : LogStream α) :
    LogStream.run u (n + 1) s =
      (((LogStream.next u s).1, (LogStream.next u s).2.event) ::
        (LogStream.run u n (LogStream.next u s).2).1,
       (LogStream.run u n (LogStream.next u s).2).2) := rfl

theorem run_clean (u : Unmarshal α) :
    ∀ (toks : List (List Nat)) (evs : List α) (tok0 : List Nat) (e0 : α)
      (cl : Option Closer),
      List.Forall₂ (fun l e => u l = Except.ok e) (toks.filter (fun t => t ≠ [])) evs →
      LogStream.run u (evs.length + 1) ⟨⟨toks, tok0, none⟩, e0, none, cl, false⟩ =
        (evs.map (fun e => (true, e)) ++ [(false, evs.getLastD e0)],
         ⟨⟨[], [], none⟩, evs.getLastD e0, none, cl, false⟩) := by
  intro toks
  induction toks with
  | nil =>
    intro evs tok0 e0 cl h
    simp only [List.filter_nil] at h
    cases h
    simp [LogStream.run, LogStream.next, Scanner.scanToNonEmpty, scanSkip, Scanner.scanErr]
  | cons t rest ih =>
    intro evs tok0 e0 cl h
    by_cases ht : t = []
    · subst ht
      have hf : List.filter (fun t => decide (t ≠ [])) (([] : List Nat) :: rest) =
          List.filter (fun t => decide (t ≠ [])) rest := by simp
      rw [hf] at h
      have hc : ¬((none : Option GoError) ≠ none ∨ false = true) := by simp
      have hstep :
          LogStream.next u (⟨⟨[] :: rest, tok0, none⟩, e0, none, cl, false⟩ : LogStream α) =
            LogStream.next u ⟨⟨rest, [], none⟩, e0, none, cl, false⟩ := by
        simp only [LogStream.next, Scanner.scanToNonEmpty, if_neg hc]
        rw [scanSkip_cons_empty]
      rw [run_succ, hstep, ← run_succ]
      exact ih evs [] e0 cl h
    · have hf : List.filter (fun t => decide (t ≠ [])) (t :: rest) =
          t :: List.filter (fun t => decide (t ≠ [])) rest := by simp [ht]
      rw [hf] at h
      cases h with
      | cons he htail =>
        rename_i e evs'
        have hc : ¬((none : Option GoError) ≠ none ∨ false = true) := by simp
        have hnext :
            LogStream.next u (⟨⟨t :: rest, tok0, none⟩, e0, none, cl, false⟩ : LogStream α) =
              (true, ⟨⟨rest, t, none⟩, e, none, cl, false⟩) := by
          simp only [LogStream.next, Scanner.scanToNonEmpty, if_neg hc,
            scanSkip_cons_ne t rest none ht]
          simp [he]
        rw [run_succ, hnext]
        simp only [List.length_cons]
        rw [ih evs' t e cl htail]
        simp only [List.map_cons, List.cons_append, List.getLastD_cons]

theorem run_bad (u : Unmarshal α) :
    ∀ (pre : List (List Nat)) (evs : List α) (bad : List Nat)
      (suf : List (List Nat)) (tok0 : List Nat) (e0 : α) (cl : Option Closer)
      (fin0 : Option GoError) (eMsg : GoError),
      List.Forall₂ (fun l e => u l = Except.ok e) (pre.filter (fun t => t ≠ [])) evs →
      bad ≠ [] → u bad = Except.error eMsg →
      LogStream.run u (evs.length + 1)
          ⟨⟨pre ++ bad :: suf, tok0, fin0⟩, e0, none, cl, false⟩ =
        (evs.map (fun e => (true, e)) ++ [(false, evs.getLastD e0)],
         ⟨⟨suf, bad, fin0⟩, evs.getLastD e0, some eMsg, cl, false⟩) := by
  intro pre
  induction pre with
  | nil =>
    intro evs bad suf tok0 e0 cl fin0 eMsg h hb hbad
    simp only [List.filter_nil] at h
    cases h
    have hc : ¬((none : Option GoError) ≠ none ∨ false = true) := by simp
    have hnext :
        LogStream.next u (⟨⟨[] ++ bad :: suf, tok0, fin0⟩, e0, none, cl, false⟩ : LogStream α) =
          (false, ⟨⟨suf, bad, fin0⟩, e0, some eMsg, cl, false⟩) := by
      simp only [List.nil_append, LogStream.next, Scanner.scanToNonEmpty, if_neg hc,
        scanSkip_cons_ne bad suf fin0 hb]
      simp [hbad]
    simp only [List.length_nil]
    rw [run_succ, hnext]
    rfl
  | cons t pre ih =>
    intro evs bad suf tok0 e0 cl fin0 eMsg h hb hbad
    by_cases ht : t = []
    · subst ht
      have hf : List.filter (fun t => decide (t ≠ [])) (([] : List Nat) :: pre) =
          List.filter (fun t => decide (t ≠ [])) pre := by simp
      rw [hf] at h
      have hc : ¬((none : Option GoError) ≠ none ∨ false = true) := by simp
      have hstep :
          LogStream.next u
              (⟨⟨([] :: pre) ++ bad :: suf, tok0, fin0⟩, e0, none, cl, false⟩ : LogStream α) =
            LogStream.next u ⟨⟨pre ++ bad :: suf, [], fin0⟩, e0, none, cl, false⟩ := by
        simp only [List.cons_append, LogStream.next, Scanner.scanToNonEmpty, if_neg hc]
        rw [scanSkip_cons_empty]
      rw [run_succ, hstep, ← run_succ]
      exact ih evs bad suf [] e0 cl fin0 eMsg h hb hbad
    · have hf : List.filter (fun t => decide (t ≠ [])) (t :: pre) =
          t :: List.filter (fun t => decide (t ≠ [])) pre := by simp [ht]
      rw [hf] at h
      cases h with
      | cons he htail =>
        rename_i e evs'
        have hc : ¬((none : Option GoError) ≠ none ∨ false = true) := by simp
        have hnext :
            LogStream.next u
                (⟨⟨(t :: pre) ++ bad :: suf, tok0, fin0⟩, e0, none, cl, false⟩ : LogStream α) =
              (true, ⟨⟨pre ++ bad :: suf, t, fin0⟩, e, none, cl, false⟩) := by
          simp only [List.cons_append, LogStream.next, Scanner.scanToNonEmpty, if_neg hc,
            scanSkip_cons_ne t (pre ++ bad :: suf) fin0 ht]
          simp [he]
        rw [run_succ, hnext]
        simp only [List.length_cons]
        rw [ih evs' bad suf t e cl fin0 eMsg htail hb hbad]
        simp only [List.map_cons, List.cons_append, List.getLastD_cons]

theorem runE_succ (u : Unmarshal ErrorEvent) (n : Nat) (s : ErrorStream) :
    ErrorStream.run u (n + 1) s =
      (((ErrorStream.Next u s).1, (ErrorStream.Next u s).2.event) ::
        (ErrorStream.run u n (ErrorStream.Next u s).2).1,
       (ErrorStream.run u n (ErrorStream.Next u s).2).2) := rfl

theorem runA_succ (u : Unmarshal AuditEvent) (n : Nat) (s : AuditStream) :
    AuditStream.run u (n + 1) s =
      (((AuditStream.Next u s).1, (AuditStream.Next u s).2.event) ::
        (AuditStream.run u n (AuditStream.Next u s).2).1,
       (AuditStream.run u n (AuditStream.Next u s).2).2) := rfl

theorem nextE_terminal (u : Unmarshal ErrorEvent) (s : ErrorStream)
    (h : s.err ≠ none ∨ s.closed = true) : ErrorStream.Next u s = (false, s) := by
  rw [ErrorStream.Next, if_pos h]

theorem nextA_terminal (u : Unmarshal AuditEvent) (s : AuditStream)
    (h : s.err ≠ none ∨ s.closed = true) : AuditStream.Next u s = (false, s) := by
  rw [AuditStream.Next, if_pos h]

theorem runE_fixed (u : Unmarshal ErrorEvent) (s : ErrorStream)
    (hfix : ErrorStream.Next u s = (false, s)) :
    ∀ n, ErrorStream.run u n s = (List.replicate n (false, s.event), s) := by
  intro n
  induction n with
  | zero => rfl
  | succ n ih =>
    rw [runE_succ, hfix]
    rw [List.replicate_succ]
    exact congrArg (fun p => ((false, s.event) :: p.1, p.2)) ih

theorem runA_fixed (u : Unmarshal AuditEvent) (s : AuditStream)
    (hfix : AuditStream.Next u s = (false, s)) :
    ∀ n, AuditStream.run u n s = (List.replicate n (false, s.event), s) := by
  intro n
  induction n with
  | zero => rfl
  | succ n ih =>
    rw [runA_succ, hfix]
    rw [List.replicate_succ]
    exact congrArg (fun p => ((false, s.event) :: p.1, p.2)) ih

theorem nextE_cleanEOF (u : Unmarshal ErrorEvent) (s : ErrorStream)
    (h1 : s.scanner = ⟨[], [], none⟩) (h2 : s.err = none) (h3 : s.closed = false) :
    ErrorStream.Next u s = (false, s) := by
  cases s with
  | mk sc ev er cl cd =>
    simp only at h1 h2 h3
    subst h1 h2 h3
    simp [ErrorStream.Next, Scanner.scanToNonEmpty, scanSkip, Scanner.scanErr]

theorem closeE_frame (s : ErrorStream) :
    (ErrorStream.Close s).2.err = s.err ∧ (ErrorStream.Close s).2.event = s.event := by
  rcases hc : s.closer with _ | c <;> simp [ErrorStream.Close, hc]

theorem closeA_frame (s : AuditStream) :
    (AuditStream.Close s).2.err = s.err ∧ (AuditStream.Close s).2.event = s.event := by
  rcases hc : s.closer with _ | c <;> simp [AuditStream.Close, hc]

theorem runOpsE_closed (u : Unmarshal ErrorEvent) :
    ∀ (ops : List LogOp) (s : ErrorStream), s.closed = true →
      (ErrorStream.runOps u ops s).err = s.err ∧
        (ErrorStream.runOps u ops s).closed = true := by
  intro ops
  induction ops with
  | nil => intro s h; exact ⟨rfl, h⟩
  | cons op ops ih =>
    intro s h
    cases op with
    | nextOp =>
      rw [ErrorStream.runOps, nextE_terminal u s (Or.inr h)]
      exact ih s h
    | closeOp =>
      rw [ErrorStream.runOps]
      rcases hc : s.closer with _ | c
      · simp only [ErrorStream.Close, hc]
        exact ih s h
      · simp only [ErrorStream.Close, hc]
        exact ih ⟨s.scanner, s.event, s.err, some c, true⟩ rfl

theorem runOpsA_closed (u : Unmarshal AuditEvent) :
    ∀ (ops : List LogOp) (s : AuditStream), s.closed = true →
      (AuditStream.runOps u ops s).err = s.err ∧
        (AuditStream.runOps u ops s).closed = true := by
  intro ops
  induction ops with
  | nil => intro s h; exact ⟨rfl, h⟩
  | cons op ops ih =>
    intro s h
    cases op with
    | nextOp =>
      rw [AuditStream.runOps, nextA_terminal u s (Or.inr h)]
      exact ih s h
    | closeOp =>
      rw [AuditStream.runOps]
      rcases hc : s.closer with _ | c
      · simp only [AuditStream.Close, hc]
        exact ih s h
      · simp only [AuditStream.Close, hc]
        exact ih ⟨s.scanner, s.event, s.err, some c, true⟩ rfl

theorem nextE_withCloseResult (u : Unmarshal ErrorEvent) (r : Option GoError)
    (s : ErrorStream) :
    ErrorStream.Next u (ErrorStream.withCloseResult r s) =
      ((ErrorStream.Next u s).1,
       ErrorStream.withCloseResult r (ErrorStream.Next u s).2) := by
  cases s with
  | mk sc ev er cl cd =>
    simp only [ErrorStream.withCloseResult, ErrorStream.Next]
    by_cases h : er ≠ none ∨ cd = true
    · rw [if_pos h, if_pos h]
    · rw [if_neg h, if_neg h]
      rcases hsc : Scanner.scanToNonEmpty sc with ⟨b, sc2⟩
      cases b
      · rfl
      · rcases hu : u sc2.tok with e | v <;> simp only [hu]

theorem nextA_withCloseResult (u : Unmarshal AuditEvent) (r : Option GoError)
    (s : AuditStream) :
    AuditStream.Next u (AuditStream.withCloseResult r s) =
      ((AuditStream.Next u s).1,
       AuditStream.withCloseResult r (AuditStream.Next u s).2) := by
  cases s with
  | mk sc ev er cl cd =>
    simp only [AuditStream.withCloseResult, AuditStream.Next]
    by_cases h : er ≠ none ∨ cd = true
    · rw [if_pos h, if_pos h]
    · rw [if_neg h, if_neg h]
      rcases hsc : Scanner.scanToNonEmpty sc with ⟨b, sc2⟩
      cases b
      · rfl
      · rcases hu : u sc2.tok with e | v <;> simp only [hu]

theorem closeE_withCloseResult (r : Option GoError) (s : ErrorStream) :
    (ErrorStream.Close (ErrorStream.withCloseResult r s)).2 =
      ErrorStream.withCloseResult r (ErrorStream.Close s).2 := by
  rcases hc : s.closer with _ | c <;>
    simp [ErrorStream.Close, ErrorStream.withCloseResult, hc]

theorem closeA_withCloseResult (r : Option GoError) (s : AuditStream) :
    (AuditStream.Close (AuditStream.withCloseResult r s)).2 =
      AuditStream.withCloseResult r (AuditStream.Close s).2 := by
  rcases hc : s.closer with _ | c <;>
    simp [AuditStream.Close, AuditStream.withCloseResult, hc]

theorem runOpsE_withCloseResult (u : Unmarshal ErrorEvent) (r : Option GoError) :
    ∀ (ops : List LogOp) (s : ErrorStream),
      ErrorStream.runOps u ops (ErrorStream.withCloseResult r s) =
        ErrorStream.withCloseResult r (ErrorStream.runOps u ops s) := by
  intro ops
  induction ops with
  | nil => intro s; rfl
  | cons op ops ih =>
    intro s
    cases op with
    | nextOp =>
      rw [ErrorStream.runOps, nextE_withCloseResult]
      exact ih (ErrorStream.Next u s).2
    | closeOp =>
      rw [ErrorStream.runOps, closeE_withCloseResult]
      exact ih (ErrorStream.Close s).2

theorem runOpsA_withCloseResult (u : Unmarshal AuditEvent) (r : Option GoError) :
    ∀ (ops : List LogOp) (s : AuditStream),
      AuditStream.runOps u ops (AuditStream.withCloseResult r s) =
        AuditStream.withCloseResult r (AuditStream.runOps u ops s) := by
  intro ops
  induction ops with
  | nil => intro s; rfl
  | cons op ops ih =>
    intro s
    cases op with
    | nextOp =>
      rw [AuditStream.runOps, nextA_withCloseResult]
      exact ih (AuditStream.Next u s).2
    | closeOp =>
      rw [AuditStream.runOps, closeA_withCloseResult]
      exact ih (AuditStream.Close s).2

theorem mem_dropCR {x : Nat} {l : List Nat} (h : x ∈ dropCR l) : x ∈ l := by
  rw [dropCR] at h
  split at h
  · exact List.dropLast_subset l h
  · exact h

theorem splitLinesAux_no_newline :
    ∀ (bs acc : List Nat), (10 : Nat) ∉ acc →
      ∀ l ∈ splitLinesAux bs acc, (10 : Nat) ∉ l := by
  intro bs
  induction bs with
  | nil =>
    intro acc hacc l hl
    rw [splitLinesAux] at hl
    split at hl
    · simp at hl
    · simp only [List.mem_singleton] at hl
      subst hl
      intro hx
      exact hacc (by simpa using mem_dropCR hx)
  | cons b bs ih =>
    intro acc hacc l hl
    rw [splitLinesAux] at hl
    split at hl
    · rcases List.mem_cons.mp hl with hl | hl
      · subst hl
        intro hx
        exact hacc (by simpa using mem_dropCR hx)
      · exact ih [] (by simp) l hl
    · rename_i hb
      refine ih (b :: acc) ?_ l hl
      intro hx
      rcases List.mem_cons.mp hx with hx | hx
      · exact hb hx.symm
      · exact hacc hx

theorem splitLines_no_newline (data : List Nat) :
    ∀ l ∈ splitLines data, (10 : Nat) ∉ l :=
  splitLinesAux_no_newline data [] (by simp)

theorem nextE_true_bytes (u : Unmarshal ErrorEvent) (s s' : ErrorStream)
    (h : ErrorStream.Next u s = (true, s')) :
    ErrorStream.Bytes s' ∈ s.scanner.toks ∧ ErrorStream.Bytes s' ≠ [] := by
  rw [ErrorStream.Next] at h
  by_cases hterm : s.err ≠ none ∨ s.closed = true
  · rw [if_pos hterm] at h
    simp at h
  · rw [if_neg hterm] at h
    rcases hsc : Scanner.scanToNonEmpty s.scanner with ⟨b, sc2⟩
    rw [hsc] at h
    cases b
    · simp at h
    · rcases hu : u sc2.tok with e | v
      · simp only [hu] at h
        simp at h
      · simp only [hu] at h
        rw [Prod.mk.injEq] at h
        rcases h with ⟨-, h2⟩
        subst h2
        rw [Scanner.scanToNonEmpty] at hsc
        have hm := scanSkip_true_mem s.scanner.toks s.scanner.fin sc2 hsc
        exact ⟨hm.1, hm.2⟩

theorem nextCross (f : ErrorEvent → AuditEvent) (uE : Unmarshal ErrorEvent)
    (uA : Unmarshal AuditEvent) (hu : ∀ l, uA l = Except.map f (uE l))
    (s : ErrorStream) :
    AuditStream.Next uA (crossMap f s) =
      ((ErrorStream.Next uE s).1, crossMap f (ErrorStream.Next uE s).2) := by
  cases s with
  | mk sc ev er cl cd =>
    simp only [crossMap, AuditStream.Next, ErrorStream.Next]
    by_cases h : er ≠ none ∨ cd = true
    · rw [if_pos h, if_pos h]
    · rw [if_neg h, if_neg h]
      rcases hsc : Scanner.scanToNonEmpty sc with ⟨b, sc2⟩
      cases b
      · rfl
      · rcases hu2 : uE sc2.tok with e | v
        · have ha : uA sc2.tok = Except.error e := by rw [hu, hu2]; rfl
          simp only [ha, hu2]
        · have ha : uA sc2.tok = Except.ok (f v) := by rw [hu, hu2]; rfl
          simp only [ha, hu2]

/-- Bytes of the example error-log line carrying the message `disk full`. -/
def exLine1 : List Nat := strBytes "\x7b\"message\":\"disk full\"\x7d"

/-- Bytes of the example error-log line carrying the message `timeout`. -/
def exLine2 : List Nat := strBytes "\x7b\"message\":\"timeout\"\x7d"

/-- The example byte source of the spec: two error-event lines separated by
an empty line, with a trailing newline. -/
def exContent : List Nat :=
  strBytes "\x7b\"message\":\"disk full\"\x7d\n\n\x7b\"message\":\"timeout\"\x7d\n"

/-- A concrete decoder standing in for `json.Unmarshal` into `ErrorEvent`
on the two example lines. -/
def uErrEx : Unmarshal ErrorEvent := fun l =>
  if l = exLine1 then Except.ok ⟨"disk full"⟩
  else if l = exLine2 then Except.ok ⟨"timeout"⟩
  else Except.error "invalid character"

/-- Bytes of an example audit-log line. -/
def auLine : List Nat :=
  strBytes "\x7b\"time\":\"T\",\"request\":\x7b\"path\":\"/p\",\"identity\":\"i\"\x7d,\"response\":\x7b\"code\":200,\"time\":5\x7d\x7d"

/-- The example audit byte source: one audit-event line, trailing newline. -/
def auContent : List Nat := auLine ++ [10]

/-- The record the example audit line decodes to. -/
def auEvent : AuditEvent := ⟨1, ⟨"/p", "i"⟩, ⟨200, 5⟩⟩

/-- A concrete decoder standing in for `json.Unmarshal` into `AuditEvent`
on the example audit line. -/
def uAudEx : Unmarshal AuditEvent := fun l =>
  if l = auLine then Except.ok auEvent else Except.error "invalid character"

/-- A decoder rejecting every line, as `json.Unmarshal` does on garbage. -/
def uFailE : Unmarshal ErrorEvent := fun _ => Except.error "invalid character"

/-- Bytes of the well-formed first line of the malformed example source. -/
def c2line1 : List Nat := strBytes "\x7b\"message\":\"ok\"\x7d"

/-- Bytes of the malformed second line of the malformed example source. -/
def c2badline : List Nat := strBytes "not json"

/-- Bytes of the never-reached third line of the malformed example source. -/
def c2line3 : List Nat := strBytes "\x7b\"message\":\"later\"\x7d"

/-- A byte source whose second non-empty line is malformed. -/
def c2content : List Nat :=
  c2line1 ++ [10] ++ c2badline ++ [10] ++ c2line3 ++ [10]

/-- A concrete decoder accepting only the first line of `c2content`. -/
def uC2 : Unmarshal ErrorEvent := fun l =>
  if l = c2line1 then Except.ok ⟨"ok"⟩ else Except.error "invalid character"

/-- Bytes of the line of the raw-bytes example. -/
def msgXLine : List Nat := strBytes "\x7b\"message\":\"x\"\x7d"

/-- Byte source of the raw-bytes example: two blank lines, then the
`message: x` line, then a trailing newline. -/
def msgXContent : List Nat := [10, 10] ++ msgXLine ++ [10]

/-- A concrete decoder accepting only the `message: x` line. -/
def uMsgX : Unmarshal ErrorEvent := fun l =>
  if l = msgXLine then Except.ok ⟨"x"⟩ else Except.error "invalid character"

/-- A decoder into `AuditEvent` rejecting every line. -/
def uFailA : Unmarshal AuditEvent := fun _ => Except.error "invalid character"

/-- Bytes of a malformed audit line. -/
def auBad : List Nat := strBytes "garbage"

/-- C1: for every byte source whose content consists of N valid non-empty
JSON lines of the bound record shape (the lines on which the decoder
succeeds), interspersed with arbitrary empty lines and ending cleanly,
N+1 successive `Next` calls return `true` exactly N times, each making the
decoded record of the corresponding line available (the event paired with
each result), in line order, and the (N+1)-th call returns `false` with
the sticky error still `none` (the final state's `err` field); stated for
both `ErrorStream` and `AuditStream`. -/
theorem c1_clean_source_decodes_all :
    (∀ (u : Unmarshal ErrorEvent) (content : List Nat) (evs : List ErrorEvent)
       (cl : Option Closer),
       List.Forall₂ (fun l e => u l = Except.ok e)
         ((splitLines content).filter (fun t => t ≠ [])) evs →
       ErrorStream.run u (evs.length + 1) (NewErrorStream ⟨content, none, cl⟩) =
         (evs.map (fun e => (true, e)) ++ [(false, evs.getLastD zeroErrorEvent)],
          ⟨⟨[], [], none⟩, evs.getLastD zeroErrorEvent, none, cl, false⟩)) ∧
    (∀ (u : Unmarshal AuditEvent) (content : List Nat) (evs : List AuditEvent)
       (cl : Option Closer),
       List.Forall₂ (fun l e => u l = Except.ok e)
         ((splitLines content).filter (fun t => t ≠ [])) evs →
       AuditStream.run u (evs.length + 1) (NewAuditStream ⟨content, none, cl⟩) =
         (evs.map (fun e => (true, e)) ++ [(false, evs.getLastD zeroAuditEvent)],
          ⟨⟨[], [], none⟩, evs.getLastD zeroAuditEvent, none, cl, false⟩)) := by
  constructor
  · intro u content evs cl h
    rw [runBridgeE]
    have htl : (NewErrorStream ⟨content, none, cl⟩).toLog =
        (⟨⟨splitLines content, [], none⟩, zeroErrorEvent, none, cl, false⟩ :
          LogStream ErrorEvent) := rfl
    rw [htl, run_clean u (splitLines content) evs [] zeroErrorEvent cl h]
    rfl
  · intro u content evs cl h
    rw [runBridgeA]
    have htl : (NewAuditStream ⟨content, none, cl⟩).toLog =
        (⟨⟨splitLines content, [], none⟩, zeroAuditEvent, none, cl, false⟩ :
          LogStream AuditEvent) := rfl
    rw [htl, run_clean u (splitLines content) evs [] zeroAuditEvent cl h]
    rfl

/-- Witness for C1 on the spec's example source (`disk full`, blank line,
`timeout`) and on a one-line audit source. -/
theorem c1_clean_source_decodes_all_witness :
    List.Forall₂ (fun l e => uErrEx l = Except.ok e)
        ((splitLines exContent).filter (fun t => t ≠ []))
        [⟨"disk full"⟩, ⟨"timeout"⟩] ∧
    ErrorStream.run uErrEx 3 (NewErrorStream ⟨exContent, none, none⟩) =
      ([(true, ⟨"disk full"⟩), (true, ⟨"timeout"⟩), (false, ⟨"timeout"⟩)],
       ⟨⟨[], [], none⟩, ⟨"timeout"⟩, none, none, false⟩) ∧
    List.Forall₂ (fun l e => uAudEx l = Except.ok e)
        ((splitLines auContent).filter (fun t => t ≠ [])) [auEvent] ∧
    AuditStream.run uAudEx 2 (NewAuditStream ⟨auContent, none, none⟩) =
      ([(true, auEvent), (false, auEvent)],
       ⟨⟨[], [], none⟩, auEvent, none, none, false⟩) := by
  have hfE : (splitLines exContent).filter (fun t => t ≠ []) = [exLine1, exLine2] := by
    decide
  have hE : List.Forall₂ (fun l e => uErrEx l = Except.ok e)
      ((splitLines exContent).filter (fun t => t ≠ []))
      [⟨"disk full"⟩, ⟨"timeout"⟩] := by
    rw [hfE]
    exact List.Forall₂.cons rfl (List.Forall₂.cons rfl List.Forall₂.nil)
  have hfA : (splitLines auContent).filter (fun t => t ≠ []) = [auLine] := by decide
  have hA : List.Forall₂ (fun l e => uAudEx l = Except.ok e)
      ((splitLines auContent).filter (fun t => t ≠ [])) [auEvent] := by
    rw [hfA]
    exact List.Forall₂.cons rfl List.Forall₂.nil
  refine ⟨hE, ?_, hA, ?_⟩
  · exact c1_clean_source_decodes_all.1 uErrEx exContent
      [⟨"disk full"⟩, ⟨"timeout"⟩] none hE
  · exact c1_clean_source_decodes_all.2 uAudEx auContent [auEvent] none hA

/-- C2: for every byte source whose K-th non-empty line is rejected by the
decoder, the first K-1 `Next` calls return `true` with the correct decodes,
the K-th returns `false`, the sticky error afterwards equals the original
decode error unmodified, and no line after the K-th is consumed from the
scanner (the final state still holds the whole suffix `suf`); for both
stream kinds. -/
theorem c2_decode_error_sticky :
    (∀ (u : Unmarshal ErrorEvent) (content : List Nat) (pre : List (List Nat))
       (bad : List Nat) (suf : List (List Nat)) (evs : List ErrorEvent)
       (cl : Option Closer) (fin0 : Option GoError) (eMsg : GoError),
       splitLines content = pre ++ bad :: suf →
       List.Forall₂ (fun l e => u l = Except.ok e)
         (pre.filter (fun t => t ≠ [])) evs →
       bad ≠ [] → u bad = Except.error eMsg →
       ErrorStream.run u (evs.length + 1) (NewErrorStream ⟨content, fin0, cl⟩) =
         (evs.map (fun e => (true, e)) ++ [(false, evs.getLastD zeroErrorEvent)],
          ⟨⟨suf, bad, fin0⟩, evs.getLastD zeroErrorEvent, some eMsg, cl, false⟩)) ∧
    (∀ (u : Unmarshal AuditEvent) (content : List Nat) (pre : List (List Nat))
       (bad : List Nat) (suf : List (List Nat)) (evs : List AuditEvent)
       (cl : Option Closer) (fin0 : Option GoError) (eMsg : GoError),
       splitLines content = pre ++ bad :: suf →
       List.Forall₂ (fun l e => u l = Except.ok e)
         (pre.filter (fun t => t ≠ [])) evs →
       bad ≠ [] → u bad = Except.error eMsg →
       AuditStream.run u (evs.length + 1) (NewAuditStream ⟨content, fin0, cl⟩) =
         (evs.map (fun e => (true, e)) ++ [(false, evs.getLastD zeroAuditEvent)],
          ⟨⟨suf, bad, fin0⟩, evs.getLastD zeroAuditEvent, some eMsg, cl, false⟩)) := by
  constructor
  · intro u content pre bad suf evs cl fin0 eMsg hsplit h hb hbad
    rw [runBridgeE]
    have htl : (NewErrorStream ⟨content, fin0, cl⟩).toLog =
        (⟨⟨splitLines content, [], fin0⟩, zeroErrorEvent, none, cl, false⟩ :
          LogStream ErrorEvent) := rfl
    rw [htl, hsplit, run_bad u pre evs bad suf [] zeroErrorEvent cl fin0 eMsg h hb hbad]
    rfl
  · intro u content pre bad suf evs cl fin0 eMsg hsplit h hb hbad
    rw [runBridgeA]
    have htl : (NewAuditStream ⟨content, fin0, cl⟩).toLog =
        (⟨⟨splitLines content, [], fin0⟩, zeroAuditEvent, none, cl, false⟩ :
          LogStream AuditEvent) := rfl
    rw [htl, hsplit, run_bad u pre evs bad suf [] zeroAuditEvent cl fin0 eMsg h hb hbad]
    rfl

/-- Witness for C2: the second non-empty line of `c2content` is malformed;
one successful decode, then the sticky decode error, with the third line
never consumed; audit side with a first-line failure. -/
theorem c2_decode_error_sticky_witness :
    splitLines c2content = [c2line1] ++ c2badline :: [c2line3] ∧
    uC2 c2badline = Except.error "invalid character" ∧
    ErrorStream.run uC2 2 (NewErrorStream ⟨c2content, none, none⟩) =
      ([(true, ⟨"ok"⟩), (false, ⟨"ok"⟩)],
       ⟨⟨[c2line3], c2badline, none⟩, ⟨"ok"⟩, some "invalid character", none, false⟩) ∧
    AuditStream.run uFailA 1 (NewAuditStream ⟨auBad ++ [10], none, none⟩) =
      ([(false, zeroAuditEvent)],
       ⟨⟨[], auBad, none⟩, zeroAuditEvent, some "invalid character", none, false⟩) := by
  have hsplit : splitLines c2content = [c2line1] ++ c2badline :: [c2line3] := by decide
  have hfpre : ([c2line1] : List (List Nat)).filter (fun t => t ≠ []) = [c2line1] := by
    decide
  have h : List.Forall₂ (fun l e => uC2 l = Except.ok e)
      (([c2line1] : List (List Nat)).filter (fun t => t ≠ [])) [⟨"ok"⟩] := by
    rw [hfpre]
    exact List.Forall₂.cons rfl List.Forall₂.nil
  have hsplitA : splitLines (auBad ++ [10]) = [] ++ auBad :: [] := by decide
  have hA : List.Forall₂ (fun l e => uFailA l = Except.ok e)
      (([] : List (List Nat)).filter (fun t => t ≠ [])) [] := List.Forall₂.nil
  refine ⟨hsplit, rfl, ?_, ?_⟩
  · exact c2_decode_error_sticky.1 uC2 c2content [c2line1] c2badline [c2line3]
      [⟨"ok"⟩] none none "invalid character" hsplit h (by decide) rfl
  · exact c2_decode_error_sticky.2 uFailA (auBad ++ [10]) [] auBad [] []
      none none "invalid character" hsplitA hA (by decide) rfl

/-- C3: in any stream state with the sticky error set or the closed flag
set, every number of further `Next` calls yields only `false` results and
leaves the entire state (scanner position included) unchanged; for both
stream kinds. -/
theorem c3_terminal_state_idempotent :
    (∀ (u : Unmarshal ErrorEvent) (s : ErrorStream),
       s.err ≠ none ∨ s.closed = true →
       ∀ n, ErrorStream.run u n s = (List.replicate n (false, s.event), s)) ∧
    (∀ (u : Unmarshal AuditEvent) (s : AuditStream),
       s.err ≠ none ∨ s.closed = true →
       ∀ n, AuditStream.run u n s = (List.replicate n (false, s.event), s)) := by
  constructor
  · intro u s h n
    exact runE_fixed u s (nextE_terminal u s h) n
  · intro u s h n
    exact runA_fixed u s (nextA_terminal u s h) n

/-- Witness for C3: an errored error stream and a closed audit stream, both
still holding unread lines, are unchanged by two further `Next` calls. -/
theorem c3_terminal_state_idempotent_witness :
    ((⟨⟨[exLine1], [], none⟩, ⟨"m"⟩, some "boom", none, false⟩ : ErrorStream).err ≠ none ∨
      (⟨⟨[exLine1], [], none⟩, ⟨"m"⟩, some "boom", none, false⟩ : ErrorStream).closed = true) ∧
    ErrorStream.run uErrEx 2 ⟨⟨[exLine1], [], none⟩, ⟨"m"⟩, some "boom", none, false⟩ =
      ([(false, ⟨"m"⟩), (false, ⟨"m"⟩)],
       ⟨⟨[exLine1], [], none⟩, ⟨"m"⟩, some "boom", none, false⟩) ∧
    AuditStream.run uAudEx 2 ⟨⟨[auLine], [], none⟩, zeroAuditEvent, none, none, true⟩ =
      ([(false, zeroAuditEvent), (false, zeroAuditEvent)],
       ⟨⟨[auLine], [], none⟩, zeroAuditEvent, none, none, true⟩) := by
  refine ⟨Or.inl (by decide), ?_, ?_⟩
  · exact c3_terminal_state_idempotent.1 uErrEx
      ⟨⟨[exLine1], [], none⟩, ⟨"m"⟩, some "boom", none, false⟩ (Or.inl (by decide)) 2
  · exact c3_terminal_state_idempotent.2 uAudEx
      ⟨⟨[auLine], [], none⟩, zeroAuditEvent, none, none, true⟩ (Or.inr rfl) 2

/-- C4, evaluated at the failing input: over a reader that does not
implement `io.Closer` but would produce valid data, `Close` called before
any advance returns no error yet leaves the stream state untouched (the
closed flag stays unset), and the first `Next` afterwards still returns
`true` with the first record decoded — contradicting the claim, and
log.go's own doc comment (log.go:103-105, 41-43) that after `Close` has
been called once, `Next` returns `false`. -/
theorem c4_close_without_closer_still_advances :
    ErrorStream.Close (NewErrorStream ⟨exContent, none, none⟩) =
      (none, NewErrorStream ⟨exContent, none, none⟩) ∧
    (ErrorStream.Next uErrEx
        (ErrorStream.Close (NewErrorStream ⟨exContent, none, none⟩)).2).1 = true ∧
    ErrorStream.Event
        (ErrorStream.Next uErrEx
          (ErrorStream.Close (NewErrorStream ⟨exContent, none, none⟩)).2).2 =
      ⟨"disk full"⟩ := by
  refine ⟨rfl, ?_, ?_⟩ <;> decide

/-- C5: on a stream whose byte source exposes no close capability, `Close`
is a pure no-op — it returns no error and leaves the state unchanged — and
may be repeated any number of times; for both stream kinds. -/
theorem c5_close_noop_without_closer :
    (∀ s : ErrorStream, s.closer = none →
       ErrorStream.Close s = (none, s) ∧
       ∀ n, (fun t => (ErrorStream.Close t).2)^[n] s = s) ∧
    (∀ s : AuditStream, s.closer = none →
       AuditStream.Close s = (none, s) ∧
       ∀ n, (fun t => (AuditStream.Close t).2)^[n] s = s) := by
  constructor
  · intro s h
    have h1 : ErrorStream.Close s = (none, s) := by
      simp only [ErrorStream.Close, h]
    refine ⟨h1, fun n => Function.iterate_fixed ?_ n⟩
    show (ErrorStream.Close s).2 = s
    rw [h1]
  · intro s h
    have h1 : AuditStream.Close s = (none, s) := by
      simp only [AuditStream.Close, h]
    refine ⟨h1, fun n => Function.iterate_fixed ?_ n⟩
    show (AuditStream.Close s).2 = s
    rw [h1]

/-- Witness for C5 on freshly constructed streams over readers with no
close capability, closing three times. -/
theorem c5_close_noop_without_closer_witness :
    (NewErrorStream ⟨exContent, none, none⟩).closer = none ∧
    ErrorStream.Close (NewErrorStream ⟨exContent, none, none⟩) =
      (none, NewErrorStream ⟨exContent, none, none⟩) ∧
    (fun t => (ErrorStream.Close t).2)^[3] (NewErrorStream ⟨exContent, none, none⟩) =
      NewErrorStream ⟨exContent, none, none⟩ ∧
    AuditStream.Close (NewAuditStream ⟨auContent, none, none⟩) =
      (none, NewAuditStream ⟨auContent, none, none⟩) ∧
    (fun t => (AuditStream.Close t).2)^[3] (NewAuditStream ⟨auContent, none, none⟩) =
      NewAuditStream ⟨auContent, none, none⟩ := by
  refine ⟨rfl, ?_, ?_, ?_, ?_⟩
  · exact (c5_close_noop_without_closer.1 (NewErrorStream ⟨exContent, none, none⟩) rfl).1
  · exact (c5_close_noop_without_closer.1 (NewErrorStream ⟨exContent, none, none⟩) rfl).2 3
  · exact (c5_close_noop_without_closer.2 (NewAuditStream ⟨auContent, none, none⟩) rfl).1
  · exact (c5_close_noop_without_closer.2 (NewAuditStream ⟨auContent, none, none⟩) rfl).2 3

/-- C6: the error accessor never reflects an error produced by the closing
operation: `Close` leaves the sticky error and the decoded event unchanged,
and over any sequence of `Next`/`Close` operations the sticky error is
independent of the result the bound closer returns; for both stream
kinds. -/
theorem c6_close_error_not_sticky :
    (∀ s : ErrorStream,
       ErrorStream.Err (ErrorStream.Close s).2 = ErrorStream.Err s ∧
       ErrorStream.Event (ErrorStream.Close s).2 = ErrorStream.Event s) ∧
    (∀ (u : Unmarshal ErrorEvent) (ops : List LogOp) (r : Option GoError)
       (s : ErrorStream),
       ErrorStream.Err (ErrorStream.runOps u ops (ErrorStream.withCloseResult r s)) =
         ErrorStream.Err (ErrorStream.runOps u ops s)) ∧
    (∀ s : AuditStream,
       AuditStream.Err (AuditStream.Close s).2 = AuditStream.Err s ∧
       AuditStream.Event (AuditStream.Close s).2 = AuditStream.Event s) ∧
    (∀ (u : Unmarshal AuditEvent) (ops : List LogOp) (r : Option GoError)
       (s : AuditStream),
       AuditStream.Err (AuditStream.runOps u ops (AuditStream.withCloseResult r s)) =
         AuditStream.Err (AuditStream.runOps u ops s)) := by
  refine ⟨fun s => closeE_frame s, ?_, fun s => closeA_frame s, ?_⟩
  · intro u ops r s
    rw [ErrorStream.Err, ErrorStream.Err, runOpsE_withCloseResult]
    rfl
  · intro u ops r s
    rw [AuditStream.Err, AuditStream.Err, runOpsA_withCloseResult]
    rfl

/-- C7: once the closed flag is set, no advance ever records a sticky
error: over any sequence of `Next`/`Close` operations the sticky error
field is unchanged, the stream stays closed, and in particular if the
sticky error was `none` at close time it remains `none` in every reachable
state; for both stream kinds. -/
theorem c7_closed_suppresses_error_recording :
    (∀ (u : Unmarshal ErrorEvent) (ops : List LogOp) (s : ErrorStream),
       s.closed = true →
       ErrorStream.Err (ErrorStream.runOps u ops s) = ErrorStream.Err s ∧
       (ErrorStream.runOps u ops s).closed = true ∧
       (ErrorStream.Err s = none →
         ErrorStream.Err (ErrorStream.runOps u ops s) = none)) ∧
    (∀ (u : Unmarshal AuditEvent) (ops : List LogOp) (s : AuditStream),
       s.closed = true →
       AuditStream.Err (AuditStream.runOps u ops s) = AuditStream.Err s ∧
       (AuditStream.runOps u ops s).closed = true ∧
       (AuditStream.Err s = none →
         AuditStream.Err (AuditStream.runOps u ops s) = none)) := by
  constructor
  · intro u ops s h
    rcases runOpsE_closed u ops s h with ⟨h1, h2⟩
    exact ⟨h1, h2, fun h3 => h1.trans h3⟩
  · intro u ops s h
    rcases runOpsA_closed u ops s h with ⟨h1, h2⟩
    exact ⟨h1, h2, fun h3 => h1.trans h3⟩

/-- Witness for C7: closed streams with data still pending, driven through
advances and a close, record no sticky error. -/
theorem c7_closed_suppresses_error_recording_witness :
    (⟨⟨[exLine1], [], none⟩, zeroErrorEvent, none, none, true⟩ : ErrorStream).closed =
      true ∧
    ErrorStream.Err
        (ErrorStream.runOps uErrEx [LogOp.nextOp, LogOp.nextOp, LogOp.closeOp, LogOp.nextOp]
          ⟨⟨[exLine1], [], none⟩, zeroErrorEvent, none, none, true⟩) = none ∧
    AuditStream.Err
        (AuditStream.runOps uFailA [LogOp.nextOp, LogOp.closeOp, LogOp.nextOp]
          ⟨⟨[auBad], [], none⟩, zeroAuditEvent, none, some ⟨some "shut"⟩, true⟩) = none := by
  refine ⟨rfl, ?_, ?_⟩
  · exact (c7_closed_suppresses_error_recording.1 uErrEx
      [LogOp.nextOp, LogOp.nextOp, LogOp.closeOp, LogOp.nextOp]
      ⟨⟨[exLine1], [], none⟩, zeroErrorEvent, none, none, true⟩ rfl).2.2 rfl
  · exact (c7_closed_suppresses_error_recording.2 uFailA
      [LogOp.nextOp, LogOp.closeOp, LogOp.nextOp]
      ⟨⟨[auBad], [], none⟩, zeroAuditEvent, none, some ⟨some "shut"⟩, true⟩ rfl).2.2 rfl

/-- C8: after a `Next` call that decodes a line, the raw-bytes accessor
returns exactly that line: the returned bytes are one of the scanner's
pending non-empty tokens, every token a byte source splits into is free of
the newline byte (so no trailing newline and no blank-line content can
appear), and on the concrete source holding blank lines before
`message: x`, the accessor returns exactly the bytes of that line. -/
theorem c8_bytes_exact_line :
    (∀ (u : Unmarshal ErrorEvent) (s s2 : ErrorStream),
       ErrorStream.Next u s = (true, s2) →
       ErrorStream.Bytes s2 ∈ s.scanner.toks ∧ ErrorStream.Bytes s2 ≠ []) ∧
    (∀ data : List Nat, ∀ l ∈ splitLines data, (10 : Nat) ∉ l) ∧
    (ErrorStream.Next uMsgX (NewErrorStream ⟨msgXContent, none, none⟩)).1 = true ∧
    ErrorStream.Bytes
        (ErrorStream.Next uMsgX (NewErrorStream ⟨msgXContent, none, none⟩)).2 =
      strBytes "\x7b\"message\":\"x\"\x7d" := by
  refine ⟨fun u s s2 h => nextE_true_bytes u s s2 h,
    fun data => splitLines_no_newline data, ?_, ?_⟩ <;> decide

/-- Witness for C8 on the blank-lines-then-record source: the advance
decodes the line and the raw bytes are a pending non-empty token. -/
theorem c8_bytes_exact_line_witness :
    ErrorStream.Next uMsgX (NewErrorStream ⟨msgXContent, none, none⟩) =
      (true, ⟨⟨[], msgXLine, none⟩, ⟨"x"⟩, none, none, false⟩) ∧
    ErrorStream.Bytes (⟨⟨[], msgXLine, none⟩, ⟨"x"⟩, none, none, false⟩ : ErrorStream) ∈
      (NewErrorStream ⟨msgXContent, none, none⟩).scanner.toks ∧
    ErrorStream.Bytes (⟨⟨[], msgXLine, none⟩, ⟨"x"⟩, none, none, false⟩ : ErrorStream) ≠
      [] := by
  have h : ErrorStream.Next uMsgX (NewErrorStream ⟨msgXContent, none, none⟩) =
      (true, ⟨⟨[], msgXLine, none⟩, ⟨"x"⟩, none, none, false⟩) := by decide
  have h2 := c8_bytes_exact_line.1 uMsgX (NewErrorStream ⟨msgXContent, none, none⟩)
    ⟨⟨[], msgXLine, none⟩, ⟨"x"⟩, none, none, false⟩ h
  exact ⟨h, h2.1, h2.2⟩

/-- C9: `ErrorStream` and `AuditStream` implement one and the same state
machine parametrized by the record type: each `Next` coincides with the
generic machine's advance on the corresponding `LogStream` state, and
substituting decoders equal up to the record translation `f` turns every
`ErrorStream` advance into the equal `AuditStream` advance — same result,
same sticky error, same lines consumed, events translated by `f`. -/
theorem c9_one_machine_two_record_types :
    (∀ (u : Unmarshal ErrorEvent) (s : ErrorStream),
       ErrorStream.Next u s =
         ((LogStream.next u s.toLog).1, ofLogE (LogStream.next u s.toLog).2)) ∧
    (∀ (u : Unmarshal AuditEvent) (s : AuditStream),
       AuditStream.Next u s =
         ((LogStream.next u s.toLog).1, ofLogA (LogStream.next u s.toLog).2)) ∧
    (∀ (f : ErrorEvent → AuditEvent) (uE : Unmarshal ErrorEvent)
       (uA : Unmarshal AuditEvent),
       (∀ l, uA l = Except.map f (uE l)) →
       ∀ s : ErrorStream,
         AuditStream.Next uA (crossMap f s) =
           ((ErrorStream.Next uE s).1, crossMap f (ErrorStream.Next uE s).2)) :=
  ⟨fun u s => nextBridgeE u s, fun u s => nextBridgeA u s,
   fun f uE uA hu s => nextCross f uE uA hu s⟩

/-- A record translation from error events to audit events, for the C9
witness. -/
def fEA : ErrorEvent → AuditEvent := fun e => ⟨0, ⟨e.message, ""⟩, ⟨0, 0⟩⟩

/-- The example error decoder transported along `fEA`, for the C9 witness. -/
def uA9 : Unmarshal AuditEvent := fun l => Except.map fEA (uErrEx l)

/-- Witness for C9 with the example decoder transported along `fEA` on the
example source. -/
theorem c9_one_machine_two_record_types_witness :
    uA9 exLine1 = Except.map fEA (uErrEx exLine1) ∧
    AuditStream.Next uA9 (crossMap fEA (NewErrorStream ⟨exContent, none, none⟩)) =
      ((ErrorStream.Next uErrEx (NewErrorStream ⟨exContent, none, none⟩)).1,
       crossMap fEA (ErrorStream.Next uErrEx (NewErrorStream ⟨exContent, none, none⟩)).2) :=
  ⟨rfl, c9_one_machine_two_record_types.2.2 fEA uErrEx uA9 (fun _ => rfl)
    (NewErrorStream ⟨exContent, none, none⟩)⟩

/-- C10: a stream that reached clean end-of-data (scanner exhausted with no
pending error, sticky error `none`, not closed) is a terminal fixed point
even though no stream-level flag records it: every further `Next` call
returns `false`, leaves the whole state unchanged and the sticky error
`none`, because the advance re-enters the read loop and the exhausted
scanner keeps reporting no data with a nil error. -/
theorem c10_clean_eof_idempotent :
    ∀ (u : Unmarshal ErrorEvent) (s : ErrorStream),
      s.scanner = ⟨[], [], none⟩ → s.err = none → s.closed = false →
      ∀ n, ErrorStream.run u n s = (List.replicate n (false, s.event), s) := by
  intro u s h1 h2 h3 n
  exact runE_fixed u s (nextE_cleanEOF u s h1 h2 h3) n

/-- Witness for C10: the state left behind by a clean end-of-data advance
keeps answering `false` with no sticky error, unchanged. -/
theorem c10_clean_eof_idempotent_witness :
    (⟨⟨[], [], none⟩, ⟨"last"⟩, none, none, false⟩ : ErrorStream).scanner =
      ⟨[], [], none⟩ ∧
    ErrorStream.run uFailE 3 ⟨⟨[], [], none⟩, ⟨"last"⟩, none, none, false⟩ =
      ([(false, ⟨"last"⟩), (false, ⟨"last"⟩), (false, ⟨"last"⟩)],
       ⟨⟨[], [], none⟩, ⟨"last"⟩, none, none, false⟩) :=
  ⟨rfl, c10_clean_eof_idempotent uFailE
    ⟨⟨[], [], none⟩, ⟨"last"⟩, none, none, false⟩ rfl rfl rfl 3⟩
